import Mathlib

/-!
Verification of the CSV ingestion pipeline of `cine_vision_backend`.

The development shallowly embeds the streaming CSV pipeline
(`src/utils/stream-processor.ts`), the tolerant field parsers
(`src/utils/parser.ts`), the header validator (`src/utils/validation.ts`)
and the monetary coercion of `src/services/csv.service.ts` into Lean.

Modelling conventions:
  * JavaScript values flowing through the parsers are modelled by `JsonVal`;
    `null` and `undefined` are both modelled as absence (`Option.none`) where
    only truthiness is observable.
  * `JSON.parse` is an external library routine; it is modelled as an oracle
    parameter `jp : String → Option JsonVal` (`none` = the call throws).
  * Numeric strings are parsed into exact rationals (`Rat`); every concrete
    input appearing in the claims is a short decimal literal that IEEE-754
    doubles represent exactly, so the rational model coincides with
    `parseFloat` on them.
  * Stateful stream processing is embedded as explicit state passing: the
    transformer/accumulator is a fold over the list of decoded rows, and the
    per-record retry loop is structural recursion on the remaining retry
    budget.
-/

/-- JavaScript/JSON values, as produced by `JSON.parse`. -/
inductive JsonVal where
  | jnull : JsonVal
  | jbool : Bool → JsonVal
  | jnum : Rat → JsonVal
  | jstr : String → JsonVal
  | jarr : List JsonVal → JsonVal
  | jobj : List (String × JsonVal) → JsonVal
deriving Repr

/-- Property lookup on a JS object literal (first binding wins). -/
def objGet (fields : List (String × JsonVal)) (key : String) : Option JsonVal :=
  match fields with
  | [] => none
  | (k, v) :: rest => if k = key then some v else objGet rest key

/-- JavaScript truthiness of a `JsonVal`. -/
def jsTruthy : JsonVal → Bool
  | .jnull => false
  | .jbool b => b
  | .jnum q => q ≠ 0
  | .jstr s => s ≠ ""
  | .jarr _ => true
  | .jobj _ => true

/-- JS whitespace characters (`\s`), restricted to the ASCII range. -/
def jsIsSpace (c : Char) : Bool :=
  c = ' ' ∨ c = '\t' ∨ c = '\n' ∨ c = '\r' ∨ c = '\x0b' ∨ c = '\x0c'

/-- JS `\w` character class: ASCII letters, digits and underscore. -/
def isWordChar (c : Char) : Bool :=
  ('a' ≤ c ∧ c ≤ 'z') ∨ ('A' ≤ c ∧ c ≤ 'Z') ∨ ('0' ≤ c ∧ c ≤ '9') ∨ c = '_'

mutual

/-- `String(v)` for a `JsonVal` (arrays join with commas, objects as
`[object Object]`); rationals print exactly, which agrees with JS on
integral values. -/
def jsStringOf : JsonVal → String
  | .jnull => "null"
  | .jbool b => if b then "true" else "false"
  | .jnum q => if q.den = 1 then toString q.num else toString q
  | .jstr s => s
  | .jarr xs => String.intercalate "," (jsStringElems xs)
  | .jobj _ => "[object Object]"

/-- Array elements inside `Array.prototype.toString`: `null` becomes `""`. -/
def jsStringElems : List JsonVal → List String
  | [] => []
  | .jnull :: rest => "" :: jsStringElems rest
  | v :: rest => jsStringOf v :: jsStringElems rest

end

/-- Split a character list on the regex `/,\s*/`: every comma ends a piece
and the following whitespace run (tracked by the `skipWs` flag) is consumed
by the match. -/
def splitCommaWsCh : Bool → List Char → List Char → List (List Char)
  | _, [], acc => [acc.reverse]
  | skipWs, c :: rest, acc =>
    if skipWs && jsIsSpace c then splitCommaWsCh true rest acc
    else if c == ',' then acc.reverse :: splitCommaWsCh true rest []
    else splitCommaWsCh false rest (c :: acc)

/-- `s.split(/,\s*/)` on strings. -/
def splitCommaWs (s : String) : List String :=
  (splitCommaWsCh false s.data []).map (fun cs => String.mk cs)

/-- Whether the first character after the leading whitespace run is an ASCII
uppercase letter (the `\s*(?=[A-Z])` part of the cast-entry regex). -/
def nextAfterWsUpper (cs : List Char) : Bool :=
  match cs.dropWhile jsIsSpace with
  | d :: _ => 'A' ≤ d && d ≤ 'Z'
  | [] => false

/-- Split on the regex `/(?<=[^\s]),\s*(?=[A-Z])/`: a comma is a boundary
when the character before it is not whitespace and the first character after
the greedy whitespace run is an ASCII uppercase letter; the comma and the
whitespace run (consumed via the `skipWs` flag) belong to the match. -/
def splitCastEntriesCh : Option Char → Bool → List Char → List Char → List (List Char)
  | _, _, [], acc => [acc.reverse]
  | prev, skipWs, c :: rest, acc =>
    if skipWs && jsIsSpace c then splitCastEntriesCh (some c) true rest acc
    else if c == ',' &&
        (match prev with | some p => ! jsIsSpace p | none => false) &&
        nextAfterWsUpper rest then
      acc.reverse :: splitCastEntriesCh (some c) true rest []
    else splitCastEntriesCh (some c) false rest (c :: acc)

/-- `s.split(/(?<=[^\s]),\s*(?=[A-Z])/g)` on strings. -/
def splitCastEntries (s : String) : List String :=
  (splitCastEntriesCh none false s.data []).map (fun cs => String.mk cs)

/-- The part of an entry before the first case-insensitive `" as "`
(`entry.split(/ as /i)[0]`); the whole entry when the pattern is absent. -/
def beforeAsCh : List Char → List Char
  | ' ' :: a :: s :: ' ' :: rest =>
    if (a = 'a' ∨ a = 'A') ∧ (s = 's' ∨ s = 'S') then []
    else ' ' :: beforeAsCh (a :: s :: ' ' :: rest)
  | c :: rest => c :: beforeAsCh rest
  | [] => []

/-- String-level `entry.split(/ as /i)[0]`. -/
def beforeAs (s : String) : String := String.mk (beforeAsCh s.data)

/-- Whether `sub` occurs as a contiguous run inside `cs`. -/
def containsSeqCh (cs sub : List Char) : Bool :=
  match cs with
  | [] => sub.isEmpty
  | _ :: rest => List.isPrefixOf sub cs ∨ containsSeqCh rest sub

/-- `s.includes(sub)`. -/
def jsIncludes (s sub : String) : Bool := containsSeqCh s.data sub.data

/-- `s.includes(c)` for a single character. -/
def hasChar (s : String) (c : Char) : Bool := s.data.contains c

/-- JS `s.trim()`: strip leading and trailing whitespace (structural, so
kernel-evaluable, unlike `String.trim`). -/
def jsTrim (s : String) : String :=
  String.mk (((s.data.dropWhile jsIsSpace).reverse.dropWhile jsIsSpace).reverse)

/-- `s.split(sep)` for a single-character literal separator (no regex). -/
def splitOnChar (s : String) (sep : Char) : List String :=
  s.split (fun c => c = sep)

/-- Whether a string is wrapped in square brackets
(`s.startsWith('[') && s.endsWith(']')`). -/
def isBracketed (s : String) : Bool :=
  match s.data with
  | [] => false
  | c :: rest =>
    c == '[' && (match rest.getLast? with
      | some d => d == ']'
      | none => c == ']')

/-- The inner text of a bracket-wrapped string (between the outer brackets). -/
def bracketInner (s : String) : String :=
  String.mk ((s.data.drop 1).dropLast)

/-- Match of `/^\[([\w\s&.-]+)\]$/`: the whole string is `[` + a nonempty
run drawn from letters, digits, `_`, whitespace, `&`, `.`, `-` + `]`;
returns the captured group. -/
def simpleCompanyMatch (s : String) : Option String :=
  if isBracketed s && decide (2 ≤ s.data.length) then
    let inner := (s.data.drop 1).dropLast
    if !inner.isEmpty &&
        inner.all (fun c => isWordChar c || jsIsSpace c || c == '&' || c == '.' || c == '-') then
      some (String.mk inner)
    else none
  else none

/-- Natural number denoted by a digit run. -/
def digitsToNat (ds : List Char) : Nat :=
  ds.foldl (fun acc c => acc * 10 + (c.toNat - '0'.toNat)) 0

/-- The numerator/denominator pair denoted by the longest valid
float-literal prefix of `s` (sign, integer digits, optional fraction,
optional exponent), or `none` when no prefix parses (`NaN`).  The value
`sign * (I + F/10^f) * 10^e` is represented as one integer fraction. -/
def parseFloatParts (s : String) : Option (Int × Nat) :=
  let cs := s.data.dropWhile jsIsSpace
  let (sign, cs) : Int × List Char :=
    match cs with
    | '-' :: rest => (-1, rest)
    | '+' :: rest => (1, rest)
    | _ => (1, cs)
  let intDs := cs.takeWhile Char.isDigit
  let cs1 := cs.drop intDs.length
  let (fracDs, cs2) : List Char × List Char :=
    match cs1 with
    | '.' :: rest => (rest.takeWhile Char.isDigit, rest.drop (rest.takeWhile Char.isDigit).length)
    | _ => ([], cs1)
  if intDs.isEmpty && fracDs.isEmpty then none
  else
    let mantNum : Int :=
      sign * ((digitsToNat intDs * 10 ^ fracDs.length + digitsToNat fracDs : Nat) : Int)
    let expVal : Int :=
      match cs2 with
      | e :: rest =>
        if e == 'e' || e == 'E' then
          let (esign, rest2) : Int × List Char :=
            match rest with
            | '-' :: r => (-1, r)
            | '+' :: r => (1, r)
            | _ => (1, rest)
          let eds := rest2.takeWhile Char.isDigit
          if eds.isEmpty then 0 else esign * (digitsToNat eds : Int)
        else 0
      | [] => 0
    match expVal with
    | .ofNat e => some (mantNum * ((10 ^ e : Nat) : Int), 10 ^ fracDs.length)
    | .negSucc e => some (mantNum, 10 ^ fracDs.length * 10 ^ (e + 1))

/-- JS `parseFloat` over exact rationals: skip leading whitespace, optional
sign, then `digits [. digits]` or `. digits`, then an optional exponent
`e/E [sign] digits`; the longest valid prefix is taken and `none` models
`NaN` (no parsable prefix).  Exact-decimal inputs are modelled exactly;
`Infinity` and precision-loss inputs are outside the model. -/
def parseFloatQ (s : String) : Option Rat :=
  match parseFloatParts s with
  | none => none
  | some (n, d) => some (mkRat n d)

/-- JS `parseInt(s, 10)`: skip leading whitespace, optional sign, then the
leading decimal-digit run; `none` models `NaN`. -/
def parseIntJS (s : String) : Option Int :=
  let cs := s.data.dropWhile jsIsSpace
  let (sign, cs) : Int × List Char :=
    match cs with
    | '-' :: rest => (-1, rest)
    | '+' :: rest => (1, rest)
    | _ => (1, cs)
  let ds := cs.takeWhile Char.isDigit
  if ds.isEmpty then none else some (sign * (digitsToNat ds : Int))

/-- A production-company entry `{name, id?}` as built by the parser; the
`name` field holds an arbitrary JS value because `c.name || 'Unknown'`
forwards whatever `JSON.parse` produced, and a JS `id` that is absent,
`null` or otherwise falsy is modelled as `none`. -/
structure Company where
  name : JsonVal
  id : Option JsonVal := none
deriving Repr

/-- `parser.ts` / `parseProductionCompanies`, mapping of one JSON-array
element: `typeof c === 'string'` gives `{name: c}`; otherwise the element's
`name` (or `'Unknown'`) and `id` (or `null`) are read — reading a property
of `null` throws a `TypeError`, modelled by `Except.error`. -/
def mapCompanyElem : JsonVal → Except Unit Company
  | .jstr s => .ok ⟨.jstr s, none⟩
  | .jnull => .error ()
  | .jobj o =>
    .ok ⟨(match objGet o "name" with
            | some v => if jsTruthy v then v else .jstr "Unknown"
            | none => .jstr "Unknown"),
         (match objGet o "id" with
            | some v => if jsTruthy v then some v else none
            | none => none)⟩
  | _ => .ok ⟨.jstr "Unknown", none⟩

/-- `xs.map(mapCompanyElem)` in an exception-throwing context: the map
aborts at the first element whose mapping throws (a `null` element). -/
def mapCompanyElems : List JsonVal → Except Unit (List Company)
  | [] => .ok []
  | x :: rest =>
    match mapCompanyElem x with
    | .error e => .error e
    | .ok c =>
      match mapCompanyElems rest with
      | .error e => .error e
      | .ok cs => .ok (c :: cs)

/-- The input of the tolerant field parsers: the TS signature says
`string | null | undefined`, but the bodies also branch on values that are
already arrays or objects. -/
inductive JsInput where
  | jsNull : JsInput
  | jsUndef : JsInput
  | jsStr : String → JsInput
  | jsArr : List JsonVal → JsInput
  | jsObj : List (String × JsonVal) → JsInput
deriving Repr

/-- JS falsiness of a parser input (`!input`). -/
def inputFalsy : JsInput → Bool
  | .jsNull => true
  | .jsUndef => true
  | .jsStr s => s == ""
  | .jsArr _ => false
  | .jsObj _ => false

/-- `String(input)` on a parser input. -/
def jsStringOfInput : JsInput → String
  | .jsNull => "null"
  | .jsUndef => "undefined"
  | .jsStr s => s
  | .jsArr xs => jsStringOf (.jarr xs)
  | .jsObj o => jsStringOf (.jobj o)

/-- `parser.ts` / `parseProductionCompanies`.  `jp` is the `JSON.parse`
oracle (`none` = the call throws).  Strategy order follows the source:
falsy input → `[]`; bracket-shorthand regex; JSON array parse (whose
element mapping throws on `null` elements, caught by the inner `catch`);
already-structured input; pipe split; comma split.  A `TypeError` raised
while mapping an already-structured array reaches the outer `catch`, whose
non-string fallback wraps `String(input)`. -/
def parseProductionCompanies (jp : String → Option JsonVal) (input : JsInput) :
    List Company :=
  if inputFalsy input then []
  else
    match input with
    | .jsStr s =>
      -- bracket-wrapped strings: shorthand regex, then JSON
      let jsonAttempt : Option (List Company) :=
        if isBracketed s then
          match simpleCompanyMatch s with
          | some inner => some [⟨.jstr (jsTrim inner), none⟩]
          | none =>
            match jp s with
            | some (.jarr xs) =>
              match mapCompanyElems xs with
              | .ok cs => some cs
              | .error _ => none     -- inner catch: fall through
            | _ => none              -- non-array parse or throw: fall through
        else none
      match jsonAttempt with
      | some cs => cs
      | none =>
        if hasChar s '|' then
          (splitOnChar s '|').map (fun n => ⟨.jstr (jsTrim n), none⟩)
        else
          ((splitCommaWs s).filter (fun n => n ≠ "")).map (fun n => ⟨.jstr (jsTrim n), none⟩)
    | .jsArr xs =>
      match mapCompanyElems xs with
      | .ok cs => cs
      | .error _ => [⟨.jstr (jsStringOfInput input), none⟩]  -- outer catch, non-string input
    | .jsObj o =>
      [⟨(match objGet o "name" with
           | some v => if jsTruthy v then v else .jstr "Unknown"
           | none => .jstr "Unknown"),
        (match objGet o "id" with
           | some v => if jsTruthy v then some v else none
           | none => none)⟩]
    | _ => []    -- unreachable: null/undefined are falsy

/-- `parser.ts` / `parseCastNames`, mapping of one JSON-array element
(total: property access on `null` is dodged by the explicit
`actor !== null` check, so `String(null)` is produced instead). -/
def castNameElem : JsonVal → JsonVal
  | .jstr s => .jstr s
  | .jobj o =>
    (match objGet o "name" with
     | some v => if jsTruthy v then v else .jstr "Unknown Actor"
     | none => .jstr "Unknown Actor")
  | .jarr _ => .jstr "Unknown Actor"
  | v => .jstr (jsStringOf v)

/-- `parser.ts` / `parseCastNames`: JSON array (for bracket-wrapped
strings), already-an-array input, the `"<name> as <role>"` comma/uppercase
heuristic, then plain comma split.  Calling `.includes` on an object input
throws, reaching the outer `catch`, which returns `[]` for non-strings. -/
def parseCastNames (jp : String → Option JsonVal) (input : JsInput) : List JsonVal :=
  if inputFalsy input then []
  else
    match input with
    | .jsStr s =>
      let jsonAttempt : Option (List JsonVal) :=
        if isBracketed s then
          match jp s with
          | some (.jarr xs) => some (xs.map castNameElem)
          | _ => none          -- non-array parse or throw: fall through
        else none
      match jsonAttempt with
      | some names => names
      | none =>
        if jsIncludes s " as " then
          (splitCastEntries s).map (fun entry => .jstr (jsTrim (beforeAs entry)))
        else
          ((splitCommaWs s).filter (fun n => n ≠ "")).map (fun n => .jstr (jsTrim n))
    | .jsArr xs => xs.map castNameElem
    | .jsObj _ => []   -- `.includes` on an object throws; outer catch returns []
    | _ => []          -- unreachable: null/undefined are falsy

/-- `parser.ts` / `parseCast`: identical control flow to `parseCastNames`
but wrapping every result as `{name: …}`. -/
def parseCast (jp : String → Option JsonVal) (input : JsInput) : List Company :=
  if inputFalsy input then []
  else
    match input with
    | .jsStr s =>
      let jsonAttempt : Option (List Company) :=
        if isBracketed s then
          match jp s with
          | some (.jarr xs) => some (xs.map (fun x => ⟨castNameElem x, none⟩))
          | _ => none
        else none
      match jsonAttempt with
      | some cs => cs
      | none =>
        if jsIncludes s " as " then
          (splitCastEntries s).map (fun entry => ⟨.jstr (jsTrim (beforeAs entry)), none⟩)
        else
          ((splitCommaWs s).filter (fun n => n ≠ "")).map (fun n => ⟨.jstr (jsTrim n), none⟩)
    | .jsArr xs => xs.map (fun x => ⟨castNameElem x, none⟩)
    | .jsObj _ => []
    | _ => []

/-- `stream-processor.ts` / `parseMoneyValue`: `null`/`undefined`/`''` give
`0`, otherwise `parseFloat(value) || 0` — `NaN` and `0` both collapse to
`0`, and the parsed value is returned unchanged otherwise. -/
def parseMoneyValue (value : Option String) : Rat :=
  match value with
  | none => 0
  | some s =>
    if s = "" then 0
    else match parseFloatQ s with
      | none => 0
      | some q => if q = 0 then 0 else q

/-- JS `Math.round`: round half toward positive infinity. -/
def jsRound (q : Rat) : Int := ⌊q + 1/2⌋

/-- `csv.service.ts` monetary coercion (lines 165–167 of the compiled
service): `BigInt(Math.round(parseFloat(raw) || 0))`; an absent field
stringifies to a non-numeric token, so `parseFloat` yields `NaN` and the
result defaults to `0`. -/
def csvServiceMoney (value : Option String) : Int :=
  jsRound (match value with
    | none => 0
    | some s =>
      match parseFloatQ s with
      | none => 0
      | some q => if q = 0 then 0 else q)

/-- `stream-processor.ts` / `parseNumber`: empty or missing input gives the
caller-supplied default, as does a `NaN` parse. -/
def parseNumber (value : Option String) (defaultValue : Option Rat) : Option Rat :=
  match value with
  | none => defaultValue
  | some s =>
    if s = "" then defaultValue
    else match parseFloatQ s with
      | none => defaultValue
      | some q => some q

/-- `stream-processor.ts` / `parseInt2`: same shape with `parseInt(s, 10)`. -/
def parseInt2 (value : Option String) (defaultValue : Option Int) : Option Int :=
  match value with
  | none => defaultValue
  | some s =>
    if s = "" then defaultValue
    else match parseIntJS s with
      | none => defaultValue
      | some n => some n

/-- `stream-processor.ts` / `parseStringArray`: missing/empty input gives
`[]`; bracket-wrapped input is handed to `JSON.parse` (whatever value it
returns), with the `catch` falling back to the comma split; everything else
splits on `/,\s*/` and drops empty pieces. -/
def parseStringArray (jp : String → Option JsonVal) (value : Option String) : JsonVal :=
  match value with
  | none => .jarr []
  | some s =>
    if s = "" then .jarr []
    else if isBracketed s then
      match jp s with
      | some j => j
      | none => .jarr (((splitCommaWs s).filter (fun n => n ≠ "")).map .jstr)
    else .jarr (((splitCommaWs s).filter (fun n => n ≠ "")).map .jstr)

/-- One decoded CSV row as consumed by the `StreamProcessor` transformer:
column name → raw string value, with `none` for an absent column (the
`release_date` column keeps its raw text; the `Date` cast is observable in
the model only through truthiness, which the raw text preserves). -/
structure RawRow where
  id : Option String := none
  title : Option String := none
  vote_average : Option String := none
  vote_count : Option String := none
  status : Option String := none
  release_date : Option String := none
  revenue : Option String := none
  runtime : Option String := none
  budget : Option String := none
  imdb_id : Option String := none
  original_language : Option String := none
  original_title : Option String := none
  overview : Option String := none
  popularity : Option String := none
  tagline : Option String := none
  genres : Option String := none
  production_companies : Option String := none
  production_countries : Option String := none
  spoken_languages : Option String := none
  cast : Option String := none
  director : Option String := none
  director_of_photography : Option String := none
  writers : Option String := none
  producers : Option String := none
  music_composer : Option String := none
  imdb_rating : Option String := none
  imdb_votes : Option String := none
  poster_path : Option String := none
deriving Repr

/-- `String(v)` for a possibly-absent value (`String(null)` is `"null"`). -/
def jsToString (v : Option String) : String :=
  match v with
  | none => "null"
  | some s => s

/-- The normalized movie record built by
`stream-processor.ts` / `transformRow`. -/
structure MovieRecord where
  id : String
  title : Option String
  vote_average : Option Rat
  vote_count : Option Int
  status : Option String
  release_date : Option String
  revenue : Rat
  runtime : Option Int
  budget : Rat
  imdb_id : Option String
  original_language : Option String
  original_title : Option String
  overview : Option String
  popularity : Option Rat
  tagline : Option String
  genres : JsonVal
  production_companies : List Company
  production_countries : JsonVal
  spoken_languages : JsonVal
  cast : List JsonVal
  director : JsonVal
  director_of_photography : JsonVal
  writers : JsonVal
  producers : JsonVal
  music_composer : JsonVal
  imdb_rating : Option Rat
  imdb_votes : Option Int
  poster_path : Option String
deriving Repr

/-- `stream-processor.ts` / `transformRow` (the method of
`StreamProcessor`): pure field-by-field coercion of one raw row.  `getValue`
is field access with a `null` default, which the `Option String` fields
model directly; `original_title` falls back to `title`. -/
def transformRow (jp : String → Option JsonVal) (row : RawRow) : MovieRecord :=
  { id := jsToString row.id
    title := row.title
    vote_average := parseNumber row.vote_average (some 0)
    vote_count := parseInt2 row.vote_count (some 0)
    status := row.status
    release_date := (match row.release_date with
      | none => none
      | some s => if s = "" then none else some s)
    revenue := parseMoneyValue row.revenue
    runtime := parseInt2 row.runtime none
    budget := parseMoneyValue row.budget
    imdb_id := row.imdb_id
    original_language := row.original_language
    original_title := (match row.original_title with
      | none => row.title
      | some s => some s)
    overview := row.overview
    popularity := parseNumber row.popularity none
    tagline := row.tagline
    genres := parseStringArray jp row.genres
    production_companies := parseProductionCompanies jp (match row.production_companies with
      | none => .jsNull
      | some s => .jsStr s)
    production_countries := parseStringArray jp row.production_countries
    spoken_languages := parseStringArray jp row.spoken_languages
    cast := parseCastNames jp (match row.cast with
      | none => .jsNull
      | some s => .jsStr s)
    director := parseStringArray jp row.director
    director_of_photography := parseStringArray jp row.director_of_photography
    writers := parseStringArray jp row.writers
    producers := parseStringArray jp row.producers
    music_composer := parseStringArray jp row.music_composer
    imdb_rating := parseNumber row.imdb_rating none
    imdb_votes := parseInt2 row.imdb_votes none
    poster_path := row.poster_path }

/-- One recorded error: row number (1-based; `-1` for batch-level errors)
and message, as pushed onto `this.errorRows`. -/
structure ErrorRow where
  row : Int
  error : String
deriving Repr, DecidableEq

/-- Retry bound `MAX_RETRIES` of `processBatch`. -/
def MAX_RETRIES : Nat := 3

/-- What committing one record produced: whether `insertedCount` was
incremented, the error rows pushed, and the retry delays awaited (ms). -/
structure RecordCommit where
  success : Bool
  errs : List ErrorRow
  delays : List Nat
deriving Repr, DecidableEq

/-- The per-record retry loop of `stream-processor.ts` / `processBatch`
(lines 327–365).  `up attempt` is the storage upsert on the given 1-based
attempt; the `while (!success && retries < MAX_RETRIES)` loop is embedded
with `fuel = MAX_RETRIES - retries` as the decreasing measure.  On a failed
attempt `retries` increments; at `retries >= MAX_RETRIES` an `ErrorRow`
with row `-1`, the record id and the terminal message is pushed, otherwise
the loop sleeps `500 * retries` ms and retries. -/
def runRetries (up : Nat → Except String Unit) (id : String) :
    Nat → Nat → RecordCommit
  | 0, _ => ⟨false, [], []⟩
  | fuel + 1, retries =>
    match up (retries + 1) with
    | .ok _ => ⟨true, [], []⟩
    | .error msg =>
      let r := retries + 1
      if MAX_RETRIES ≤ r then
        ⟨false, [⟨-1, "处理记录ID " ++ id ++ " 失败: " ++ msg⟩], []⟩
      else
        let rest := runRetries up id fuel r
        ⟨rest.success, rest.errs, 500 * r :: rest.delays⟩

/-- Commit one record with retries (`retries` starts at 0). -/
def commitRecord (up : MovieRecord → Nat → Except String Unit)
    (item : MovieRecord) : RecordCommit :=
  runRetries (up item) item.id MAX_RETRIES 0

/-- Result of one `processBatch` call. -/
structure BatchResult where
  insertedCount : Nat
  errs : List ErrorRow
  delays : List Nat
deriving Repr, DecidableEq

/-- `stream-processor.ts` / `processBatch` over one flushed batch: records
are committed one by one; a record that exhausts its retries contributes an
error row but never stops the loop.  (The BigInt-to-Number pre-pass of the
source is the identity here because `parseMoneyValue` already returns
numbers.) -/
def processBatch (up : MovieRecord → Nat → Except String Unit)
    (batch : List MovieRecord) : BatchResult :=
  batch.foldl
    (fun acc item =>
      let rc := commitRecord up item
      ⟨acc.insertedCount + (if rc.success then 1 else 0),
       acc.errs ++ rc.errs, acc.delays ++ rc.delays⟩)
    ⟨0, [], []⟩

/-- Mutable state of a `StreamProcessor` run, sequentialized: the row
counter of `createTransformer`, the accumulator `currentBatch`, the batches
handed to `processBatch` in flush order, `errorRows`, `processedCount` and
the awaited retry delays. -/
structure ProcState where
  rowNumber : Nat
  currentBatch : List MovieRecord
  flushes : List (List MovieRecord)
  errorRows : List ErrorRow
  processedCount : Nat
  delays : List Nat
deriving Repr

/-- Fresh processor state. -/
def initState : ProcState := ⟨0, [], [], [], 0, []⟩

/-- The required-field check of `createTransformer`:
`!row.id || !row.title` (absent or empty string is falsy). -/
def requiredMissing (row : RawRow) : Bool :=
  (match row.id with | none => true | some s => s == "") ||
  (match row.title with | none => true | some s => s == "")

/-- The error message pushed for a row with missing required fields. -/
def requiredMsg : String := "缺少必填字段 ID 或 title"

/-- One step of `createTransformer` (lines 236–282): bump the row number;
a row with falsy `id` or `title` records an error and is skipped; otherwise
the transformed record joins `currentBatch`, and reaching `batchSize`
triggers a `processBatch` flush (sequentialized: the fire-and-forget flush
completes before the next row). -/
def transformStep (jp : String → Option JsonVal)
    (up : MovieRecord → Nat → Except String Unit) (batchSize : Nat)
    (st : ProcState) (row : RawRow) : ProcState :=
  let n := st.rowNumber + 1
  if requiredMissing row then
    { st with
      rowNumber := n
      errorRows := st.errorRows ++ [⟨(n : Int), requiredMsg⟩] }
  else
    let item := transformRow jp row
    let batch := st.currentBatch ++ [item]
    if batchSize ≤ batch.length then
      let br := processBatch up batch
      { rowNumber := n, currentBatch := [],
        flushes := st.flushes ++ [batch],
        errorRows := st.errorRows ++ br.errs,
        processedCount := st.processedCount + br.insertedCount,
        delays := st.delays ++ br.delays }
    else { st with rowNumber := n, currentBatch := batch }

/-- Run the transformer over all decoded rows. -/
def runRows (jp : String → Option JsonVal)
    (up : MovieRecord → Nat → Except String Unit) (batchSize : Nat)
    (rows : List RawRow) : ProcState :=
  rows.foldl (transformStep jp up batchSize) initState

/-- Every batch handed to `processBatch` over the whole run, the final
partial batch (flushed by `processStream` when nonempty) included. -/
def allBatches (st : ProcState) : List (List MovieRecord) :=
  st.flushes ++ (if st.currentBatch.length = 0 then [] else [st.currentBatch])

/-- A stream/pipeline error, identified by its `code`. -/
structure StreamErr where
  code : String
deriving Repr, DecidableEq

/-- The result object of `processStream`. -/
structure ImportSummary where
  success : Bool
  count : Nat
  errorCount : Nat
  errors : List ErrorRow
deriving Repr, DecidableEq

/-- The premature-close error code checked at line 96. -/
def prematureCloseCode : String := "ERR_STREAM_PREMATURE_CLOSE"

/-- Lines 103–128 of `processStream`: flush the remaining partial batch,
then build the summary (`success: true`, counts, first 10 errors). -/
def finishStream (up : MovieRecord → Nat → Except String Unit)
    (st : ProcState) : ImportSummary :=
  let st2 :=
    if 0 < st.currentBatch.length then
      let br := processBatch up st.currentBatch
      { st with
        currentBatch := []
        flushes := st.flushes ++ [st.currentBatch]
        errorRows := st.errorRows ++ br.errs
        processedCount := st.processedCount + br.insertedCount
        delays := st.delays ++ br.delays }
    else st
  { success := true, count := st2.processedCount,
    errorCount := st2.errorRows.length, errors := st2.errorRows.take 10 }

/-- `stream-processor.ts` / `processStream`, sequentialized.  `rows` are
the rows the decoder delivered; `pipelineErr` is the error, if any, with
which the parse pipeline terminated after those rows.  A premature-close
error with `processedCount > 0` degrades to a warning and processing
completes normally; any other pipeline error is rethrown (after cleanup)
before the final partial batch is flushed. -/
def processStream (jp : String → Option JsonVal)
    (up : MovieRecord → Nat → Except String Unit) (batchSize : Nat)
    (rows : List RawRow) (pipelineErr : Option StreamErr) :
    Except StreamErr ImportSummary :=
  let st := runRows jp up batchSize rows
  match pipelineErr with
  | some e =>
    if e.code = prematureCloseCode ∧ 0 < st.processedCount then
      .ok (finishStream up st)
    else .error e
  | none => .ok (finishStream up st)

/-- `validation.ts` / `REQUIRED_HEADERS`: the 28 required CSV columns. -/
def REQUIRED_HEADERS : List String :=
  ["id", "title", "vote_average", "vote_count", "status", "release_date",
   "revenue", "runtime", "budget", "imdb_id", "original_language",
   "original_title", "overview", "popularity", "tagline", "genres",
   "production_companies", "production_countries", "spoken_languages",
   "cast", "director", "director_of_photography", "writers", "producers",
   "music_composer", "imdb_rating", "imdb_votes", "poster_path"]

/-- The header check of `validateCsvHeaders` once records are available:
no first record (or an empty one) reports an empty/malformed file;
otherwise every required header must occur in the first record
(`headers.includes`), and the missing ones are named in order. -/
def validateCsvHeadersCore (records : List (List String)) : Option String :=
  match records with
  | [] => some "CSV文件为空或格式不正确"
  | headers :: _ =>
    if headers.length = 0 then some "CSV文件为空或格式不正确"
    else
      let missingHeaders := REQUIRED_HEADERS.filter (fun h => ¬ headers.contains h)
      if missingHeaders ≠ [] then
        some ("缺少必需的列: " ++ String.intercalate ", " missingHeaders)
      else none

/-- `validation.ts` / `validateCsvHeaders`: the stream's chunks are fully
buffered first; zero chunks short-circuit to the empty-file message before
any parsing; otherwise the buffered text is parsed (`parseCsv` models the
`csv-parse` collaborator; `Except.error` models a parser `error` event,
which rejects the promise) and the first record is checked. -/
def validateCsvHeaders (chunks : List String)
    (parseCsv : String → Except String (List (List String))) :
    Except String (Option String) :=
  if chunks = [] then .ok (some "CSV文件为空")
  else
    match parseCsv (String.join chunks) with
    | .error e => .error e
    | .ok records => .ok (validateCsvHeadersCore records)

/-- Count-level shadow of the accumulator: given the batch-size `B`, the
number of remaining valid rows and the current batch length, the lengths of
the threshold-triggered flushes together with the final accumulator length. -/
def flushCountsP (B : Nat) : Nat → Nat → List Nat × Nat
  | 0, c => ([], c)
  | n + 1, c =>
    if B ≤ c + 1 then
      let p := flushCountsP B n 0
      ((c + 1) :: p.1, p.2)
    else flushCountsP B n (c + 1)

/-- The row-level error rows the transformer records for a row list,
starting after `n` already-numbered rows. -/
def rowErrors (n : Nat) : List RawRow → List ErrorRow
  | [] => []
  | r :: rs =>
    (if requiredMissing r then [⟨((n + 1 : Nat) : Int), requiredMsg⟩] else [])
      ++ rowErrors (n + 1) rs

/-- All records that reach the committer over the run: the flushed batches
in order followed by the final accumulator contents (which `processStream`
flushes at end of stream). -/
def flushedRecords (st : ProcState) : List MovieRecord :=
  st.flushes.flatten ++ st.currentBatch

/-- A `JSON.parse` oracle defined exactly on the canonical-output example
of the idempotence claim. -/
def jsonParseStub : String → Option JsonVal := fun s =>
  if s = "[\x7b\"name\":\"A\"\x7d]" then
    some (.jarr [.jobj [("name", .jstr "A")]])
  else none

/-- A `JSON.parse` oracle that always throws (no input in the witnesses
below is valid JSON). -/
def jpNone : String → Option JsonVal := fun _ => none

/-- An upsert oracle that always succeeds. -/
def upOk : MovieRecord → Nat → Except String Unit := fun _ _ => .ok ()

/-- A minimal valid raw row (id and title present and nonempty). -/
def goodRow : RawRow := { id := some "1", title := some "t" }

/-- A raw row with an empty `id` (row-level validation failure). -/
def badRow : RawRow := { id := some "", title := some "t" }

/-- A normalized record with the given id, built through the transformer. -/
def mkRec (i : String) : MovieRecord :=
  transformRow jpNone { id := some i, title := some "t" }

/-- Upsert oracle for the retry claim: the record with id `r1` fails its
first two attempts and succeeds on the third; `r2` fails every attempt
(message `m` + attempt number); everything else succeeds immediately. -/
def upRetry : MovieRecord → Nat → Except String Unit := fun item n =>
  if item.id = "r1" then (if n ≤ 2 then .error ("e" ++ toString n) else .ok ())
  else if item.id = "r2" then .error ("m" ++ toString n)
  else .ok ()

theorem splitCommaWsCh_no_comma (cs : List Char) :
    ∀ acc, (∀ c ∈ cs, c ≠ ',') → splitCommaWsCh false cs acc = [acc.reverse ++ cs] := by
  induction cs with
  | nil => intro acc _; simp [splitCommaWsCh]
  | cons c rest ih =>
    intro acc h
    have hc : c ≠ ',' := h c (List.mem_cons_self c rest)
    have hrest : ∀ x ∈ rest, x ≠ ',' := fun x hx => h x (List.mem_cons_of_mem c hx)
    unfold splitCommaWsCh
    simp only [Bool.false_and, Bool.false_eq_true, if_false]
    rw [if_neg (by simpa using hc)]
    rw [ih (c :: acc) hrest]
    simp

theorem runRetries_errs_neg (up : Nat → Except String Unit) (id : String) :
    ∀ fuel retries, ∀ e ∈ (runRetries up id fuel retries).errs, e.row = -1 := by
  intro fuel
  induction fuel with
  | zero => intro retries e he; simp [runRetries] at he
  | succ n ih =>
    intro retries e he
    unfold runRetries at he
    cases hu : up (retries + 1) with
    | ok v => rw [hu] at he; simp at he
    | error msg =>
      rw [hu] at he
      simp only at he
      split at he
      · rw [List.mem_singleton] at he
        rw [he]
      · exact ih (retries + 1) e he

theorem processBatch_errs_neg (up : MovieRecord → Nat → Except String Unit)
    (batch : List MovieRecord) : ∀ e ∈ (processBatch up batch).errs, e.row = -1 := by
  suffices h : ∀ (bs : List MovieRecord) (acc : BatchResult),
      (∀ e ∈ acc.errs, e.row = -1) →
      ∀ e ∈ (bs.foldl (fun acc item =>
          let rc := commitRecord up item
          (⟨acc.insertedCount + (if rc.success then 1 else 0),
            acc.errs ++ rc.errs, acc.delays ++ rc.delays⟩ : BatchResult)) acc).errs,
        e.row = -1 by
    intro e he
    exact h batch ⟨0, [], []⟩ (by simp) e he
  intro bs
  induction bs with
  | nil => intro acc hacc e he; exact hacc e he
  | cons b rest ih =>
    intro acc hacc e he
    refine ih _ ?_ e he
    intro x hx
    rcases List.mem_append.mp hx with hx | hx
    · exact hacc x hx
    · exact runRetries_errs_neg (up b) b.id MAX_RETRIES 0 x hx

theorem processBatch_errs_filter (up : MovieRecord → Nat → Except String Unit)
    (batch : List MovieRecord) :
    (processBatch up batch).errs.filter (fun e => decide (0 < e.row)) = [] := by
  rw [List.filter_eq_nil_iff]
  intro e he
  have := processBatch_errs_neg up batch e he
  simp [this]

theorem transformStep_components (jp : String → Option JsonVal)
    (up : MovieRecord → Nat → Except String Unit) (B : Nat)
    (st : ProcState) (row : RawRow) (hr : requiredMissing row = false) :
    (transformStep jp up B st row).flushes.map List.length
        = st.flushes.map List.length
          ++ (if B ≤ st.currentBatch.length + 1 then [st.currentBatch.length + 1] else [])
      ∧ (transformStep jp up B st row).currentBatch.length
        = (if B ≤ st.currentBatch.length + 1 then 0 else st.currentBatch.length + 1) := by
  unfold transformStep
  simp only [hr, Bool.false_eq_true, if_false]
  by_cases hb : B ≤ st.currentBatch.length + 1
  · simp [hb]
  · simp [hb]

theorem foldl_flush_shape (jp : String → Option JsonVal)
    (up : MovieRecord → Nat → Except String Unit) (B : Nat) :
    ∀ (rows : List RawRow) (st : ProcState),
      (∀ r ∈ rows, requiredMissing r = false) →
      (rows.foldl (transformStep jp up B) st).flushes.map List.length
          = st.flushes.map List.length
            ++ (flushCountsP B rows.length st.currentBatch.length).1
        ∧ (rows.foldl (transformStep jp up B) st).currentBatch.length
          = (flushCountsP B rows.length st.currentBatch.length).2 := by
  intro rows
  induction rows with
  | nil => intro st _; simp [flushCountsP]
  | cons r rs ih =>
    intro st hv
    have hr : requiredMissing r = false := hv r (List.mem_cons_self r rs)
    have hrest : ∀ x ∈ rs, requiredMissing x = false :=
      fun x hx => hv x (List.mem_cons_of_mem r hx)
    obtain ⟨hf, hc⟩ := transformStep_components jp up B st r hr
    obtain ⟨ihf, ihc⟩ := ih (transformStep jp up B st r) hrest
    rw [List.foldl_cons] at *
    constructor
    · rw [ihf, hf, hc]
      by_cases hb : B ≤ st.currentBatch.length + 1
      · simp only [List.length_cons, flushCountsP, hb, if_true, if_pos hb]
        simp
      · simp only [List.length_cons, flushCountsP, hb, if_false, if_neg hb]
        simp
    · rw [ihc, hc]
      by_cases hb : B ≤ st.currentBatch.length + 1
      · simp only [List.length_cons, flushCountsP, hb, if_true, if_pos hb]
      · simp only [List.length_cons, flushCountsP, hb, if_false, if_neg hb]

set_option maxRecDepth 20000 in
/-- C1: a stream of 2500 valid rows at batch size 1000 produces exactly two
threshold-triggered flushes of 1000 records, leaves 500 records in the
accumulator at end of stream, and the complete flush sequence (the
end-of-stream partial flush included) is 1000, 1000, 500. -/
theorem c1_flush_sizes (jp : String → Option JsonVal)
    (up : MovieRecord → Nat → Except String Unit) (row : RawRow)
    (h : requiredMissing row = false) :
    (runRows jp up 1000 (List.replicate 2500 row)).flushes.map List.length = [1000, 1000]
    ∧ (runRows jp up 1000 (List.replicate 2500 row)).currentBatch.length = 500
    ∧ (allBatches (runRows jp up 1000 (List.replicate 2500 row))).map List.length
        = [1000, 1000, 500] := by
  have hv : ∀ r ∈ List.replicate 2500 row, requiredMissing r = false := by
    intro r hr
    rw [List.eq_of_mem_replicate hr]
    exact h
  obtain ⟨hf, hc⟩ := foldl_flush_shape jp up 1000 (List.replicate 2500 row) initState hv
  rw [List.length_replicate] at hf hc
  have hP : flushCountsP 1000 2500 0 = ([1000, 1000], 500) := by
    decide
  unfold runRows
  have h0 : initState.currentBatch.length = 0 := rfl
  rw [h0, hP] at hf hc
  have hf2 : (List.foldl (transformStep jp up 1000) initState
      (List.replicate 2500 row)).flushes.map List.length = [1000, 1000] := by
    rw [hf]; rfl
  have hc2 : (List.foldl (transformStep jp up 1000) initState
      (List.replicate 2500 row)).currentBatch.length = 500 := hc
  refine ⟨hf2, hc2, ?_⟩
  unfold allBatches
  rw [List.map_append, hf2]
  rw [if_neg (by rw [hc2]; omega)]
  simp only [List.map_cons, List.map_nil, hc2]
  rfl

/-- Witness for `c1_flush_sizes` at a concrete valid row. -/
theorem c1_flush_sizes_witness :
    requiredMissing goodRow = false
    ∧ (allBatches (runRows jpNone upOk 1000 (List.replicate 2500 goodRow))).map List.length
        = [1000, 1000, 500] :=
  ⟨by decide, (c1_flush_sizes jpNone upOk goodRow (by decide)).2.2⟩

theorem transformStep_flushedRecords (jp : String → Option JsonVal)
    (up : MovieRecord → Nat → Except String Unit) (B : Nat)
    (st : ProcState) (row : RawRow) :
    flushedRecords (transformStep jp up B st row)
      = flushedRecords st
        ++ (if requiredMissing row then [] else [transformRow jp row]) := by
  unfold transformStep flushedRecords
  cases hr : requiredMissing row
  · simp only [Bool.false_eq_true, if_false]
    by_cases hb : B ≤ st.currentBatch.length + 1
    · simp [hb]
    · simp [hb]
  · simp

theorem foldl_flushedRecords (jp : String → Option JsonVal)
    (up : MovieRecord → Nat → Except String Unit) (B : Nat) :
    ∀ (rows : List RawRow) (st : ProcState),
      flushedRecords (rows.foldl (transformStep jp up B) st)
        = flushedRecords st
          ++ rows.filterMap
              (fun r => if requiredMissing r then none else some (transformRow jp r)) := by
  intro rows
  induction rows with
  | nil => intro st; simp
  | cons r rs ih =>
    intro st
    rw [List.foldl_cons, ih, transformStep_flushedRecords]
    cases hr : requiredMissing r
    · simp [List.filterMap_cons, hr]
    · simp [List.filterMap_cons, hr]

theorem transformStep_row_errors (jp : String → Option JsonVal)
    (up : MovieRecord → Nat → Except String Unit) (B : Nat)
    (st : ProcState) (row : RawRow) :
    (transformStep jp up B st row).errorRows.filter (fun e => decide (0 < e.row))
        = st.errorRows.filter (fun e => decide (0 < e.row))
          ++ (if requiredMissing row
              then [⟨((st.rowNumber + 1 : Nat) : Int), requiredMsg⟩] else [])
      ∧ (transformStep jp up B st row).rowNumber = st.rowNumber + 1 := by
  unfold transformStep
  cases hr : requiredMissing row
  · simp only [Bool.false_eq_true, if_false]
    by_cases hb : B ≤ st.currentBatch.length + 1
    · simp [hb, List.filter_append, processBatch_errs_filter]
    · simp [hb]
  · rw [if_pos rfl]
    refine ⟨?_, rfl⟩
    rw [List.filter_append]
    simp

theorem foldl_row_errors (jp : String → Option JsonVal)
    (up : MovieRecord → Nat → Except String Unit) (B : Nat) :
    ∀ (rows : List RawRow) (st : ProcState),
      (rows.foldl (transformStep jp up B) st).errorRows.filter (fun e => decide (0 < e.row))
        = st.errorRows.filter (fun e => decide (0 < e.row))
          ++ rowErrors st.rowNumber rows := by
  intro rows
  induction rows with
  | nil => intro st; simp [rowErrors]
  | cons r rs ih =>
    intro st
    obtain ⟨he, hn⟩ := transformStep_row_errors jp up B st r
    rw [List.foldl_cons, ih, he, hn]
    have hre : rowErrors st.rowNumber (r :: rs)
        = (if requiredMissing r
            then [⟨((st.rowNumber + 1 : Nat) : Int), requiredMsg⟩] else [])
          ++ rowErrors (st.rowNumber + 1) rs := rfl
    rw [hre, List.append_assoc]

/-- C4: over any decoded row list, (i) the records that ever reach the
committer (all flushed batches plus the end-of-stream accumulator) are
exactly the transforms of the rows whose `id` and `title` are both truthy,
in stream order — a row with a missing/empty required field contributes no
record to any batch; and (ii) the row-numbered error rows recorded by the
transformer are exactly one `ErrorRow` per such invalid row, carrying its
1-based row number and the required-field message, so later rows are
processed unaffected. -/
theorem c4_required_fields (jp : String → Option JsonVal)
    (up : MovieRecord → Nat → Except String Unit) (B : Nat) (rows : List RawRow) :
    flushedRecords (runRows jp up B rows)
        = rows.filterMap
            (fun r => if requiredMissing r then none else some (transformRow jp r))
      ∧ (runRows jp up B rows).errorRows.filter (fun e => decide (0 < e.row))
        = rowErrors 0 rows := by
  constructor
  · rw [runRows, foldl_flushedRecords]
    rfl
  · rw [runRows, foldl_row_errors]
    rfl

theorem finishStream_count (up : MovieRecord → Nat → Except String Unit)
    (st : ProcState) :
    (finishStream up st).count
      = st.processedCount + (processBatch up st.currentBatch).insertedCount := by
  unfold finishStream
  by_cases hb : 0 < st.currentBatch.length
  · rw [if_pos hb]
  · rw [if_neg hb]
    have hcb : st.currentBatch = [] := by
      cases hx : st.currentBatch
      · rfl
      · exfalso; apply hb; rw [hx]; simp
    rw [hcb]
    simp [processBatch]

/-- C5: when the parse pipeline dies with a premature-close error, the run
degrades to a summary — the final accumulated batch still being committed —
exactly when at least one record has already been committed
(`processedCount > 0`); with no progress at all the same error propagates
to the caller. -/
theorem c5_premature_close (jp : String → Option JsonVal)
    (up : MovieRecord → Nat → Except String Unit) (B : Nat)
    (rows : List RawRow) (e : StreamErr) (he : e.code = prematureCloseCode) :
    (0 < (runRows jp up B rows).processedCount →
        processStream jp up B rows (some e)
          = .ok (finishStream up (runRows jp up B rows))
        ∧ (finishStream up (runRows jp up B rows)).count
          = (runRows jp up B rows).processedCount
            + (processBatch up (runRows jp up B rows).currentBatch).insertedCount)
    ∧ ((runRows jp up B rows).processedCount = 0 →
        processStream jp up B rows (some e) = .error e) := by
  have hps : processStream jp up B rows (some e)
      = if e.code = prematureCloseCode ∧ 0 < (runRows jp up B rows).processedCount
        then .ok (finishStream up (runRows jp up B rows))
        else .error e := rfl
  constructor
  · intro hpos
    exact ⟨by rw [hps, if_pos ⟨he, hpos⟩], finishStream_count up _⟩
  · intro h0
    rw [hps, if_neg (by rw [h0]; intro hcon; exact absurd hcon.2 (lt_irrefl 0))]

/-- Witness for `c5_premature_close`: one committed record (batch size 1),
then a premature close — the run returns the summary rather than raising;
with no rows at all the error is re-raised. -/
theorem c5_premature_close_witness :
    processStream jpNone upOk 1 [goodRow] (some ⟨prematureCloseCode⟩)
        = .ok (finishStream upOk (runRows jpNone upOk 1 [goodRow]))
    ∧ processStream jpNone upOk 1 [] (some ⟨prematureCloseCode⟩)
        = .error ⟨prematureCloseCode⟩ :=
  ⟨((c5_premature_close jpNone upOk 1 [goodRow] ⟨prematureCloseCode⟩ rfl).1
      (by decide)).1,
   (c5_premature_close jpNone upOk 1 [] ⟨prematureCloseCode⟩ rfl).2 (by decide)⟩

/-- C10: whenever `processStream` returns a summary at all, that summary's
`success` field is `true` — failure is signalled only by a raised error,
never by a `success: false` summary. -/
theorem c10_summary_success (jp : String → Option JsonVal)
    (up : MovieRecord → Nat → Except String Unit) (B : Nat)
    (rows : List RawRow) (pe : Option StreamErr) (s : ImportSummary)
    (h : processStream jp up B rows pe = .ok s) : s.success = true := by
  cases pe with
  | none =>
    have hps : processStream jp up B rows none
        = .ok (finishStream up (runRows jp up B rows)) := rfl
    rw [hps] at h
    cases h
    rfl
  | some e =>
    have hps : processStream jp up B rows (some e)
        = if e.code = prematureCloseCode ∧ 0 < (runRows jp up B rows).processedCount
          then .ok (finishStream up (runRows jp up B rows))
          else .error e := rfl
    rw [hps] at h
    by_cases hc : e.code = prematureCloseCode ∧ 0 < (runRows jp up B rows).processedCount
    · rw [if_pos hc] at h
      cases h
      rfl
    · rw [if_neg hc] at h
      exact Except.noConfusion h

/-- Witness for `c10_summary_success` at a concrete empty run. -/
theorem c10_summary_success_witness :
    (⟨true, 0, 0, []⟩ : ImportSummary).success = true :=
  c10_summary_success jpNone upOk 1000 [] none ⟨true, 0, 0, []⟩ (by rfl)

/-- C2: in one flushed batch, a record whose upsert fails twice and then
succeeds on the third attempt (sleeping 500 ms then 1000 ms between
attempts) is counted as committed and produces no error row; a record that
fails all 3 attempts contributes exactly one error row carrying its id and
the terminal (third-attempt) message and is not counted; and the later
records of the batch are still processed. -/
theorem c2_retry_policy (up : MovieRecord → Nat → Except String Unit)
    (r1 r2 r3 : MovieRecord) (e1 e2 m1 m2 m3 : String)
    (h11 : up r1 1 = .error e1) (h12 : up r1 2 = .error e2)
    (h13 : up r1 3 = .ok ())
    (h21 : up r2 1 = .error m1) (h22 : up r2 2 = .error m2)
    (h23 : up r2 3 = .error m3)
    (h31 : up r3 1 = .ok ()) :
    processBatch up [r1, r2, r3]
      = ⟨2, [⟨-1, "处理记录ID " ++ r2.id ++ " 失败: " ++ m3⟩],
         [500, 1000, 500, 1000]⟩ := by
  have hc1 : commitRecord up r1 = ⟨true, [], [500, 1000]⟩ := by
    unfold commitRecord MAX_RETRIES
    simp [runRetries, h11, h12, h13, MAX_RETRIES]
  have hc2 : commitRecord up r2
      = ⟨false, [⟨-1, "处理记录ID " ++ r2.id ++ " 失败: " ++ m3⟩], [500, 1000]⟩ := by
    unfold commitRecord MAX_RETRIES
    simp [runRetries, h21, h22, h23, MAX_RETRIES]
  have hc3 : commitRecord up r3 = ⟨true, [], []⟩ := by
    unfold commitRecord MAX_RETRIES
    simp [runRetries, h31]
  simp [processBatch, hc1, hc2, hc3]

/-- Witness for `c2_retry_policy` with a concrete three-record batch and
the `upRetry` oracle. -/
theorem c2_retry_policy_witness :
    processBatch upRetry [mkRec "r1", mkRec "r2", mkRec "r3"]
      = ⟨2, [⟨-1, "处理记录ID " ++ (mkRec "r2").id ++ " 失败: " ++ "m3"⟩],
         [500, 1000, 500, 1000]⟩ :=
  c2_retry_policy upRetry (mkRec "r1") (mkRec "r2") (mkRec "r3")
    "e1" "e2" "m1" "m2" "m3"
    (by rfl) (by rfl) (by rfl)
    (by rfl) (by rfl) (by rfl)
    (by rfl)

/-- C3 counterexample: on the raw value `"1.5"` the StreamProcessor
transformer stores revenue `3/2` — not an integral value, so the monetary
field is neither truncated nor integral — while the CsvService transformer
stores `2`, the rounded value, not the truncation `1`. -/
theorem c3_counterexample :
    (transformRow jpNone { goodRow with revenue := some "1.5" }).revenue = 3 / 2
    ∧ ((3 : Rat) / 2).den ≠ 1
    ∧ csvServiceMoney (some "1.5") = 2
    ∧ (⌊(3 : Rat) / 2⌋ : Int) = 1
    ∧ (2 : Int) ≠ 1 := by
  have hdiv : (3 : Rat) / 2 = mkRat 3 2 := by
    rw [Rat.mkRat_eq_div]
    norm_num
  refine ⟨?_, ?_, ?_, ?_, by decide⟩
  · rw [hdiv]
    decide
  · rw [hdiv]
    decide
  · have hp : parseFloatQ "1.5" = some (mkRat 3 2) := by decide
    simp only [csvServiceMoney, hp]
    rw [if_neg (by decide)]
    unfold jsRound
    rw [← hdiv]
    have harith : (3 : Rat) / 2 + 1 / 2 = 2 := by norm_num
    rw [harith]
    have h2 : ((2 : Int) : Rat) = (2 : Rat) := by norm_num
    rw [← h2, Int.floor_intCast]
  · rw [Int.floor_eq_iff]
    constructor <;> norm_num

/-- C3 amended: monetary fields are parsed as floating point with default 0
when absent, empty or unparseable; the StreamProcessor transformer keeps
the parsed value unchanged (so `revenue`/`budget` need not be integral),
while the CsvService transformer rounds it to the nearest integer (integral,
but by rounding rather than truncation). -/
theorem c3_money_amended :
    (∀ jp row, (transformRow jp row).revenue = parseMoneyValue row.revenue
      ∧ (transformRow jp row).budget = parseMoneyValue row.budget)
    ∧ parseMoneyValue none = 0
    ∧ parseMoneyValue (some "") = 0
    ∧ (∀ s, parseFloatQ s = none → parseMoneyValue (some s) = 0)
    ∧ (∀ s q, parseFloatQ s = some q → parseMoneyValue (some s) = q)
    ∧ csvServiceMoney none = 0
    ∧ (∀ s, parseFloatQ s = none → csvServiceMoney (some s) = 0)
    ∧ (∀ s q, parseFloatQ s = some q → csvServiceMoney (some s) = jsRound q) := by
  have hround0 : jsRound 0 = 0 := by
    unfold jsRound
    rw [Int.floor_eq_iff]
    constructor <;> norm_num
  refine ⟨fun jp row => ⟨rfl, rfl⟩, rfl, by decide, ?_, ?_, ?_, ?_, ?_⟩
  · intro s h
    simp [parseMoneyValue, h]
  · intro s q h
    by_cases hs : s = ""
    · subst hs
      rw [show parseFloatQ "" = none from rfl] at h
      exact Option.noConfusion h
    · simp only [parseMoneyValue, hs, if_false, h]
      by_cases hq : q = 0
      · subst hq; simp
      · simp [hq]
  · simp only [csvServiceMoney]
    exact hround0
  · intro s h
    simp only [csvServiceMoney, h]
    exact hround0
  · intro s q h
    simp only [csvServiceMoney, h]
    by_cases hq : q = 0
    · subst hq
      simp
    · simp [hq]

/-- Witness for `c3_money_amended` at the raw value `"1.5"`. -/
theorem c3_money_amended_witness :
    parseFloatQ "1.5" = some (mkRat 3 2)
    ∧ parseMoneyValue (some "1.5") = mkRat 3 2
    ∧ csvServiceMoney (some "1.5") = jsRound (mkRat 3 2) :=
  ⟨by decide,
   c3_money_amended.2.2.2.2.1 "1.5" (mkRat 3 2) (by decide),
   c3_money_amended.2.2.2.2.2.2.2 "1.5" (mkRat 3 2) (by decide)⟩

set_option maxRecDepth 40000 in
/-- C6: (i) a stream with zero chunks yields the empty-file message before
any parsing; (ii) with chunks present, the validator's verdict is the
header check on the parsed records; (iii) the header check passes (returns
`null`) exactly when a first record exists and contains all 28 required
column names, in any order; and (iv) on the subset header row
`id,title,vote_average` the result names every one of the other 25
required columns, in order. -/
theorem c6_header_validation :
    (∀ parseCsv, validateCsvHeaders [] parseCsv = .ok (some "CSV文件为空"))
    ∧ (∀ chunks parseCsv records, chunks ≠ [] →
        parseCsv (String.join chunks) = .ok records →
        validateCsvHeaders chunks parseCsv = .ok (validateCsvHeadersCore records))
    ∧ (∀ records, validateCsvHeadersCore records = none
        ↔ ∃ hd tl, records = hd :: tl ∧ ∀ c ∈ REQUIRED_HEADERS, c ∈ hd)
    ∧ validateCsvHeadersCore [["id", "title", "vote_average"]]
        = some ("缺少必需的列: " ++
            "vote_count, status, release_date, revenue, runtime, budget, " ++
            "imdb_id, original_language, original_title, overview, popularity, " ++
            "tagline, genres, production_companies, production_countries, " ++
            "spoken_languages, cast, director, director_of_photography, " ++
            "writers, producers, music_composer, imdb_rating, imdb_votes, " ++
            "poster_path") := by
  refine ⟨?_, ?_, ?_, by decide⟩
  · intro p
    unfold validateCsvHeaders
    rw [if_pos rfl]
  · intro chunks p records hch hp
    unfold validateCsvHeaders
    rw [if_neg hch, hp]
  · intro records
    cases records with
    | nil =>
      constructor
      · intro hcon; exact Option.noConfusion hcon
      · rintro ⟨hd, tl, heq, _⟩; exact List.noConfusion heq
    | cons hd tl =>
      unfold validateCsvHeadersCore
      dsimp only
      by_cases hh : hd.length = 0
      · rw [if_pos hh]
        have hnil : hd = [] := by
          cases hd
          · rfl
          · simp at hh
        constructor
        · intro hcon; exact Option.noConfusion hcon
        · rintro ⟨hd2, tl2, heq, hall⟩
          injection heq with h1 h2
          subst h1
          have := hall "id" (by simp [REQUIRED_HEADERS])
          rw [hnil] at this
          simp at this
      · rw [if_neg hh]
        by_cases hm : REQUIRED_HEADERS.filter (fun h => ¬ hd.contains h) = []
        · rw [if_neg (by simpa using hm)]
          constructor
          · intro _
            refine ⟨hd, tl, rfl, ?_⟩
            intro c hc
            have := (List.filter_eq_nil_iff.mp hm) c hc
            simpa [List.elem_iff] using this
          · intro _
            rfl
        · rw [if_pos (by simpa using hm)]
          constructor
          · intro hcon; exact Option.noConfusion hcon
          · rintro ⟨hd2, tl2, heq, hall⟩
            injection heq with h1 h2
            subst h1
            exfalso
            apply hm
            rw [List.filter_eq_nil_iff]
            intro c hc
            have := hall c hc
            simp [List.elem_iff, this]

/-- Witness for `c6_header_validation`: concrete chunks whose parse gives
the subset header row, producing the 25-column missing-headers message. -/
theorem c6_header_validation_witness :
    validateCsvHeaders ["id,title,vote_average"]
        (fun _ => .ok [["id", "title", "vote_average"]])
      = .ok (some ("缺少必需的列: " ++
          "vote_count, status, release_date, revenue, runtime, budget, " ++
          "imdb_id, original_language, original_title, overview, popularity, " ++
          "tagline, genres, production_companies, production_countries, " ++
          "spoken_languages, cast, director, director_of_photography, " ++
          "writers, producers, music_composer, imdb_rating, imdb_votes, " ++
          "poster_path")) := by
  rw [c6_header_validation.2.1 ["id,title,vote_average"] _
      [["id", "title", "vote_average"]] (by decide) rfl]
  rw [c6_header_validation.2.2.2]

theorem hasChar_false_mem (s : String) (c : Char) (h : hasChar s c = false) :
    ∀ d ∈ s.data, d ≠ c := by
  intro d hd heq
  subst heq
  unfold hasChar at h
  simp at h
  exact h hd

theorem splitCommaWs_no_comma (s : String) (h : hasChar s ',' = false) :
    splitCommaWs s = [s] := by
  unfold splitCommaWs
  rw [splitCommaWsCh_no_comma s.data [] (hasChar_false_mem s ',' h)]
  simp

/-- C7: the tolerant parsers are total functions of their input — on
`null`, `undefined` and the empty string each returns `[]`; and when every
structured strategy is unavailable (no comma, no pipe, `JSON.parse` throws,
and the bracket-shorthand regex does not match), the production-company
parser's worst case returns exactly the single-element list wrapping the
raw input string (trimmed, as the source applies `.trim()`). -/
theorem c7_parsers_total :
    (∀ jp,
      parseProductionCompanies jp .jsNull = []
      ∧ parseProductionCompanies jp .jsUndef = []
      ∧ parseProductionCompanies jp (.jsStr "") = []
      ∧ parseCastNames jp .jsNull = []
      ∧ parseCastNames jp .jsUndef = []
      ∧ parseCastNames jp (.jsStr "") = []
      ∧ parseCast jp .jsNull = []
      ∧ parseCast jp .jsUndef = []
      ∧ parseCast jp (.jsStr "") = [])
    ∧ (∀ jp s, s ≠ "" → hasChar s ',' = false → hasChar s '|' = false →
        jp s = none → simpleCompanyMatch s = none →
        parseProductionCompanies jp (.jsStr s) = [⟨.jstr (jsTrim s), none⟩]) := by
  constructor
  · exact fun jp => ⟨rfl, rfl, rfl, rfl, rfl, rfl, rfl, rfl, rfl⟩
  · intro jp s hs hcomma hpipe hjp hsm
    have hone : splitCommaWs s = [s] := splitCommaWs_no_comma s hcomma
    unfold parseProductionCompanies
    rw [if_neg (by simp [inputFalsy, hs])]
    dsimp only
    by_cases hb : isBracketed s = true
    · simp [hb, hsm, hjp, hpipe, hone, hs]
    · simp [hb, hpipe, hone, hs]

/-- Witness for `c7_parsers_total` with a plain company-name string. -/
theorem c7_parsers_total_witness :
    parseProductionCompanies jpNone .jsNull = []
    ∧ parseProductionCompanies jpNone (.jsStr "Warner Bros")
        = [⟨.jstr "Warner Bros", none⟩] := by
  refine ⟨(c7_parsers_total.1 jpNone).1, ?_⟩
  rw [c7_parsers_total.2 jpNone "Warner Bros"
      (by decide) (by decide) (by decide) rfl (by decide)]
  rfl

theorem parseProductionCompanies_json (jp : String → Option JsonVal)
    (s : String) (xs : List JsonVal) (cs : List Company)
    (hs : s ≠ "") (hb : isBracketed s = true) (hm : simpleCompanyMatch s = none)
    (hj : jp s = some (.jarr xs)) (hmap : mapCompanyElems xs = .ok cs) :
    parseProductionCompanies jp (.jsStr s) = cs := by
  unfold parseProductionCompanies
  rw [if_neg (by simp [inputFalsy, hs])]
  dsimp only
  simp [hb, hm, hj, hmap]

/-- C8: name-list parsing is idempotent on its canonical output — the JSON
form `[{"name":"A"}]` parses to the one-element list `{name: A}`, the
comma form `"A, B"` parses to `{name: A}, {name: B}`, and the
bracket-shorthand `"[Boondocs]"` parses to `{name: Boondocs}` (a JS `id`
that is absent or `null` is `none` in the model). -/
theorem c8_idempotence (jp : String → Option JsonVal)
    (hjp : jp "[\x7b\"name\":\"A\"\x7d]"
      = some (.jarr [.jobj [("name", .jstr "A")]])) :
    parseProductionCompanies jp (.jsStr "[\x7b\"name\":\"A\"\x7d]")
        = [⟨.jstr "A", none⟩]
    ∧ parseProductionCompanies jp (.jsStr "A, B")
        = [⟨.jstr "A", none⟩, ⟨.jstr "B", none⟩]
    ∧ parseProductionCompanies jp (.jsStr "[Boondocs]")
        = [⟨.jstr "Boondocs", none⟩] := by
  refine ⟨?_, by rfl, by rfl⟩
  exact parseProductionCompanies_json jp _ _ _ (by decide) (by decide) (by decide)
    hjp (by rfl)

/-- Witness for `c8_idempotence` with the stub `JSON.parse` oracle. -/
theorem c8_idempotence_witness :
    jsonParseStub "[\x7b\"name\":\"A\"\x7d]"
        = some (.jarr [.jobj [("name", .jstr "A")]])
    ∧ parseProductionCompanies jsonParseStub (.jsStr "[\x7b\"name\":\"A\"\x7d]")
        = [⟨.jstr "A", none⟩] := by
  have h : jsonParseStub "[\x7b\"name\":\"A\"\x7d]"
      = some (.jarr [.jobj [("name", .jstr "A")]]) := by rfl
  exact ⟨h, (c8_idempotence jsonParseStub h).1⟩

/-- C9: parsing `"Alice as Hero, Bob as Sidekick"` splits entries on the
comma-before-uppercase boundary and keeps only the name part before
`" as "`: the name-list parser yields `["Alice", "Bob"]` and the object
parser yields `[{name: Alice}, {name: Bob}]`. -/
theorem c9_cast_roles (jp : String → Option JsonVal) :
    parseCastNames jp (.jsStr "Alice as Hero, Bob as Sidekick")
        = [.jstr "Alice", .jstr "Bob"]
    ∧ parseCast jp (.jsStr "Alice as Hero, Bob as Sidekick")
        = [⟨.jstr "Alice", none⟩, ⟨.jstr "Bob", none⟩] :=
  ⟨rfl, rfl⟩
